import Mathlib

/-!
Verification of the Chart-To-Image rendering pipeline.

Shallow embedding of the repository's rendering-and-analytics core:
prices are modelled as rationals (the source uses JS numbers), series as
lists of candles, and each source function is translated line by line into
an executable Lean definition.  Sources embedded here:

* `src/renderer/utils.ts`   — `calculatePriceRange`, `formatTime`
* `src/renderer/elements.ts`— `AxesRenderer.drawTimeLabels`,
  `VWAPRenderer.calculateVWAP`, `HeikinAshiRenderer.calculateHeikinAshi`
  and `render`, `RenkoRenderer.calculateRenko` and `render`
* `src/renderer/index.ts`   — `NodeChartRenderer.drawChart`
* `src/renderer/comparison.ts` — `ComparisonRenderer.addChart` /
  `calculatePosition` / side-by-side layout
* the comparison service — `ComparisonService.grid`
-/

namespace ChartToImage

/-- OHLC candle (`ChartOHLC` in the source).  The source field `open` is a
Lean keyword, so it is named `opn` here. -/
structure Candle where
  time : Int
  opn : ℚ
  high : ℚ
  low : ℚ
  close : ℚ
  volume : Option ℚ
deriving DecidableEq, Repr

/-- `PriceRange` from `src/renderer/types.ts`: `{minPrice, maxPrice, priceRange}`. -/
structure PriceRange where
  minPrice : ℚ
  maxPrice : ℚ
  priceRange : ℚ
deriving DecidableEq, Repr

/-- Scale options bag (`config.scale` in `ChartOptions`). -/
structure ScaleOptions where
  autoScale : Bool
  x : Option ℚ
  y : Option ℚ
  minScale : Option ℚ
  maxScale : Option ℚ
deriving DecidableEq, Repr

/-- Chart type tag (`config.chartType`).  Only the five types the verified
claims mention are modelled. -/
inductive ChartType where
  | candlestick
  | line
  | area
  | heikinAshi
  | renko
deriving DecidableEq, Repr

/-- Custom bar colors (`config.customBarColors`). -/
structure BarColors where
  bullish : Option String
  bearish : Option String
  wick : Option String
  border : Option String
deriving DecidableEq, Repr

/-- The slice of `ChartOptions` consumed by the embedded code paths. -/
structure ChartOptions where
  scale : Option ScaleOptions
  chartType : ChartType
  showTimeAxis : Bool
  customBarColors : Option BarColors
deriving DecidableEq, Repr

/-- Margin record of `ChartDimensions`. -/
structure Margin where
  top : ℚ
  bottom : ℚ
  left : ℚ
  right : ℚ
deriving DecidableEq, Repr

/-- `ChartDimensions` from `src/renderer/types.ts`. -/
structure ChartDimensions where
  width : ℚ
  height : ℚ
  margin : Margin
  chartWidth : ℚ
  chartHeight : ℚ
deriving DecidableEq, Repr

/-- JS `a || b` on an optional string: `undefined` and the empty string are
falsy and fall through to the default. -/
def jsOr (o : Option String) (d : String) : String :=
  match o with
  | none => d
  | some s => if s = "" then d else s

/-- Minimum of a list of rationals; models `Math.min(...prices)` on the
non-empty spreads the source builds (the renderer guards empty series
before any call, so the `[]` value is never consumed). -/
def jsMin : List ℚ → ℚ
  | [] => 0
  | x :: xs => xs.foldl min x

/-- Maximum of a list of rationals; models `Math.max(...prices)`. -/
def jsMax : List ℚ → ℚ
  | [] => 0
  | x :: xs => xs.foldl max x

/-- `ohlc.flatMap(candle => [candle.high, candle.low])` from
`calculatePriceRange` (and from the Heikin-Ashi / Renko render bodies). -/
def rangePrices (ohlc : List Candle) : List ℚ :=
  (ohlc.map fun c => [c.high, c.low]).flatten

/-- Truthiness of `config.scale?.autoScale`. -/
def scaleAutoOn (config : ChartOptions) : Bool :=
  match config.scale with
  | some s => s.autoScale
  | none => false

/-- JS truthiness on an optional number: `0` (and `undefined`) are falsy. -/
def truthyNum (o : Option ℚ) : Option ℚ :=
  match o with
  | some v => if v = 0 then none else some v
  | none => none

/-- `config.scale?.x` as used in `if (config.scale?.x)`. -/
def scaleXArg (config : ChartOptions) : Option ℚ :=
  truthyNum (config.scale.bind ScaleOptions.x)

/-- `config.scale?.y` as used in `if (config.scale?.y)`. -/
def scaleYArg (config : ChartOptions) : Option ℚ :=
  truthyNum (config.scale.bind ScaleOptions.y)

/-- `config.scale?.minScale` (tested with `!== undefined`, no truthiness). -/
def scaleMinArg (config : ChartOptions) : Option ℚ :=
  config.scale.bind ScaleOptions.minScale

/-- `config.scale?.maxScale` (tested with `!== undefined`). -/
def scaleMaxArg (config : ChartOptions) : Option ℚ :=
  config.scale.bind ScaleOptions.maxScale

/-- `calculatePriceRange` from `src/renderer/utils.ts` (lines 80-113),
translated step for step: base min/max over all highs and lows, optional
5% auto-scale padding, optional centered x and y rescales (JS truthiness
skips a `0` factor), and final min/max clamps. -/
def calculatePriceRange (ohlc : List Candle) (config : ChartOptions) : PriceRange :=
  let prices := rangePrices ohlc
  let min0 := jsMin prices
  let max0 := jsMax prices
  let p1 : ℚ × ℚ :=
    if scaleAutoOn config then
      let padding : ℚ := 5/100
      let range := max0 - min0
      (min0 - range * padding, max0 + range * padding)
    else (min0, max0)
  let p2 : ℚ × ℚ :=
    match scaleXArg config with
    | some sx =>
      let centerX := (p1.1 + p1.2) / 2
      let rangeX := (p1.2 - p1.1) * sx
      (centerX - rangeX / 2, centerX + rangeX / 2)
    | none => p1
  let p3 : ℚ × ℚ :=
    match scaleYArg config with
    | some sy =>
      let centerY := (p2.1 + p2.2) / 2
      let rangeY := (p2.2 - p2.1) * sy
      (centerY - rangeY / 2, centerY + rangeY / 2)
    | none => p2
  let p4 : ℚ × ℚ :=
    match scaleMinArg config with
    | some m => (max p3.1 m, p3.2)
    | none => p3
  let p5 : ℚ × ℚ :=
    match scaleMaxArg config with
    | some m => (p4.1, min p4.2 m)
    | none => p4
  { minPrice := p5.1, maxPrice := p5.2, priceRange := p5.2 - p5.1 }

/-- The centered rescale `(center - factor*range/2, center + factor*range/2)`
shared by the x and y scale knobs of `calculatePriceRange`. -/
def applyCenteredScale (factor : ℚ) (mm : ℚ × ℚ) : ℚ × ℚ :=
  let center := (mm.1 + mm.2) / 2
  let range := (mm.2 - mm.1) * factor
  (center - range / 2, center + range / 2)

/-- The x-multiplier step of `calculatePriceRange` as a standalone map. -/
def applyXStep (config : ChartOptions) (mm : ℚ × ℚ) : ℚ × ℚ :=
  match scaleXArg config with
  | some sx => applyCenteredScale sx mm
  | none => mm

/-- The y-multiplier step of `calculatePriceRange` as a standalone map. -/
def applyYStep (config : ChartOptions) (mm : ℚ × ℚ) : ℚ × ℚ :=
  match scaleYArg config with
  | some sy => applyCenteredScale sy mm
  | none => mm

/-- The `minScale` clamp step of `calculatePriceRange`. -/
def applyMinClamp (config : ChartOptions) (mm : ℚ × ℚ) : ℚ × ℚ :=
  match scaleMinArg config with
  | some m => (max mm.1 m, mm.2)
  | none => mm

/-- The `maxScale` clamp step of `calculatePriceRange`. -/
def applyMaxClamp (config : ChartOptions) (mm : ℚ × ℚ) : ℚ × ℚ :=
  match scaleMaxArg config with
  | some m => (mm.1, min mm.2 m)
  | none => mm

/-- Packs a `(min, max)` pair into a `PriceRange` with `range = max - min`. -/
def mkRange (mm : ℚ × ℚ) : PriceRange :=
  { minPrice := mm.1, maxPrice := mm.2, priceRange := mm.2 - mm.1 }

/-- One step of the Heikin-Ashi recurrence (`calculateHeikinAshi`, branch
`i > 0` of `src/renderer/elements.ts` lines 1084-1098): `haClose` is the
average of the input candle's OHLC, `haOpen` the midpoint of the previous
output's open/close, and high/low extend the input's extremes by them. -/
def haStep (prev candle : Candle) : Candle :=
  let haClose := (candle.opn + candle.high + candle.low + candle.close) / 4
  let haOpen := (prev.opn + prev.close) / 2
  { time := candle.time
    opn := haOpen
    high := max candle.high (max haOpen haClose)
    low := min candle.low (min haOpen haClose)
    close := haClose
    volume := candle.volume }

/-- Tail of the Heikin-Ashi loop: `prev` is the previous *output* candle. -/
def haGo (prev : Candle) : List Candle → List Candle
  | [] => []
  | c :: rest =>
    let h := haStep prev c
    h :: haGo h rest

/-- `HeikinAshiRenderer.calculateHeikinAshi` (elements.ts lines 1071-1101):
the first output candle copies the first input candle, and each later
output is `haStep` of the previous output and the input at that index.
(The `i > 0` branch extends high/low outward by `haOpen`/`haClose`.) -/
def calculateHeikinAshi : List Candle → List Candle
  | [] => []
  | c :: rest => c :: haGo c rest

/-- VWAP overlay point `{time, value}`. -/
structure VWAPPoint where
  time : Int
  value : ℚ
deriving DecidableEq, Repr

/-- `typicalPrice = (high + low + close) / 3` used by the VWAP loop. -/
def typicalPrice (c : Candle) : ℚ :=
  (c.high + c.low + c.close) / 3

/-- Body of the VWAP `forEach`: `cumVP`/`cumV` are the running sums of
`typicalPrice * volume` and `volume` accumulated before this candle. -/
def vwapGo (cumVP cumV : ℚ) : List Candle → List VWAPPoint
  | [] => []
  | c :: rest =>
    let volume := c.volume.getD 0
    let tp := typicalPrice c
    let cumVP' := cumVP + tp * volume
    let cumV' := cumV + volume
    let v := if 0 < cumV' then cumVP' / cumV' else tp
    { time := c.time, value := v } :: vwapGo cumVP' cumV' rest

/-- `VWAPRenderer.calculateVWAP` (elements.ts lines 325-342): cumulative
volume-weighted typical price with a fallback to the candle's own typical
price while the cumulative volume is zero. -/
def calculateVWAP (ohlc : List Candle) : List VWAPPoint :=
  vwapGo 0 0 ohlc

/-- Running volume sum `Σ(volume)` of a series (missing volume counts 0). -/
def sumVol (ohlc : List Candle) : ℚ :=
  (ohlc.map fun c => c.volume.getD 0).sum

/-- Running `Σ(typicalPrice × volume)` of a series. -/
def sumVolPrice (ohlc : List Candle) : ℚ :=
  (ohlc.map fun c => typicalPrice c * c.volume.getD 0).sum

/-- Renko brick `{time, open, close, high, low, direction}` pushed by
`calculateRenko`; `direction` is `1` or `-1`. -/
structure RenkoBlock where
  time : Int
  opn : ℚ
  close : ℚ
  high : ℚ
  low : ℚ
  direction : Int
deriving DecidableEq, Repr

/-- Inner `for (let j = 0; j < blocksNeeded; j++)` loop of `calculateRenko`:
emits `n` bricks, each moving `currentPrice` by one brick-size increment in
`direction`; returns the bricks and the final `currentPrice`. -/
def emitBlocks (time : Int) (currentPrice : ℚ) (direction : Int) (brickSize : ℚ) :
    Nat → List RenkoBlock × ℚ
  | 0 => ([], currentPrice)
  | n + 1 =>
    let newPrice := currentPrice + direction * brickSize * currentPrice
    let block : RenkoBlock :=
      { time := time
        opn := currentPrice
        close := newPrice
        high := max currentPrice newPrice
        low := min currentPrice newPrice
        direction := direction }
    let next := emitBlocks time newPrice direction brickSize n
    (block :: next.1, next.2)

/-- Outer `for (let i = 1; ...)` loop of `calculateRenko`, carrying the
running `currentPrice`.  A candle emits `floor(priceChangePercent / brickSize)`
bricks when the move meets the threshold, else nothing. -/
def renkoGo (currentPrice : ℚ) (brickSize : ℚ) : List Candle → List RenkoBlock
  | [] => []
  | c :: rest =>
    let priceChange := c.close - currentPrice
    let priceChangePercent := |priceChange / currentPrice|
    if brickSize ≤ priceChangePercent then
      let blocksNeeded := ⌊priceChangePercent / brickSize⌋
      let direction : Int := if 0 < priceChange then 1 else -1
      let emitted := emitBlocks c.time currentPrice direction brickSize blocksNeeded.toNat
      emitted.1 ++ renkoGo emitted.2 brickSize rest
    else
      renkoGo currentPrice brickSize rest

/-- `RenkoRenderer.calculateRenko` (elements.ts lines 1166-1191):
`currentPrice` starts at the first candle's close and the loop walks the
remaining candles.  The source indexes `ohlc[0]` unconditionally; the
renderer only calls it on non-empty series (the `[]` case is unreachable). -/
def calculateRenko (ohlc : List Candle) (brickSize : ℚ) : List RenkoBlock :=
  match ohlc with
  | [] => []
  | c0 :: rest => renkoGo c0.close brickSize rest

/-- Drawing-surface operation emitted by a renderer body. -/
inductive DrawOp where
  | fillRect (x y w h : ℚ) (color : String)
  | strokeRect (x y w h : ℚ) (color : String) (lineWidth : ℚ)
deriving DecidableEq, Repr

/-- `RenkoRenderer.render` (elements.ts lines 1202-1231) as the list of
rectangle operations it issues: brick size `0.02`, early no-op return when
no bricks were produced, own min/max over the brick extremes, and one
filled (plus, for down bricks, stroked) rectangle per brick. -/
def renkoRenderOps (candles : List Candle) (dims : ChartDimensions)
    (config : ChartOptions) : List DrawOp :=
  let renkoData := calculateRenko candles (2/100)
  if renkoData.isEmpty then []
  else
    let prices := (renkoData.map fun b => [b.high, b.low]).flatten
    let minPrice := jsMin prices
    let maxPriceRenko := jsMax prices
    let priceRangeRenko := maxPriceRenko - minPrice
    let blockWidth := max 10 (dims.chartWidth / (renkoData.length : ℚ) * (9/10))
    let spacing := dims.chartWidth / (renkoData.length : ℚ)
    (renkoData.enum.map fun bi =>
      let block := bi.2
      let index : ℚ := (bi.1 : ℚ)
      let x := dims.margin.left + index * spacing + spacing / 2
      let openY := dims.margin.top +
        (maxPriceRenko - block.opn) / priceRangeRenko * dims.chartHeight
      let closeY := dims.margin.top +
        (maxPriceRenko - block.close) / priceRangeRenko * dims.chartHeight
      let isUp := 0 < block.direction
      let color := if isUp then jsOr (config.customBarColors.bind BarColors.bullish) "#26a69a"
        else jsOr (config.customBarColors.bind BarColors.bearish) "#ef5350"
      let blockHeight := max 1 |closeY - openY|
      let blockY := min openY closeY
      let fill := DrawOp.fillRect (x - blockWidth / 2) blockY blockWidth blockHeight color
      if isUp then [fill]
      else [fill, DrawOp.strokeRect (x - blockWidth / 2) blockY blockWidth blockHeight color 2]).flatten

/-- The price frame `HeikinAshiRenderer.render` computes internally for its
bars (elements.ts lines 1113-1117): min/max over the Heikin-Ashi values. -/
def haShapeRange (candles : List Candle) : PriceRange :=
  let haData := calculateHeikinAshi candles
  let prices := rangePrices haData
  mkRange (jsMin prices, jsMax prices)

/-- The price frame `RenkoRenderer.render` computes internally for its
bricks (elements.ts lines 1203-1208); `none` when zero bricks are produced
and the render exits before drawing anything. -/
def renkoShapeRange (candles : List Candle) : Option PriceRange :=
  let renkoData := calculateRenko candles (2/100)
  if renkoData.isEmpty then none
  else
    let prices := (renkoData.map fun b => [b.high, b.low]).flatten
    some (mkRange (jsMin prices, jsMax prices))

/-- Which `PriceRange` each consumer of one `drawChart` pass receives:
`axes`, `levels` and `overlays` record the range handed to `AxesRenderer`,
`LevelsRenderer` and the VWAP/EMA renderers, and `shape` the frame the
primary-shape renderer actually maps prices through. -/
structure RenderPlan where
  axes : PriceRange
  levels : PriceRange
  overlays : PriceRange
  shape : Option PriceRange
deriving DecidableEq, Repr

/-- `NodeChartRenderer.drawChart` (src/renderer/index.ts lines 91-130)
restricted to its coordinate-frame dataflow: it returns early on an empty
series, computes `priceRange = calculatePriceRange(ohlc, config)` once from
the *original* candles and hands that one object to the overlay, level and
axes renderers, while the Heikin-Ashi and Renko shape renderers recompute
their own frame from the transformed series. -/
def drawChartPlan (ohlc : List Candle) (config : ChartOptions) : Option RenderPlan :=
  if ohlc.isEmpty then none
  else
    let priceRange := calculatePriceRange ohlc config
    some
      { axes := priceRange
        levels := priceRange
        overlays := priceRange
        shape :=
          match config.chartType with
          | ChartType.candlestick => some priceRange
          | ChartType.line => some priceRange
          | ChartType.area => some priceRange
          | ChartType.heikinAshi => some (haShapeRange ohlc)
          | ChartType.renko => renkoShapeRange ohlc }

/-- Calendar-day bucket of a millisecond timestamp; models the
`date.toDateString()` comparison of `formatTime` (days since epoch). -/
def dayOfTimestamp (t : Int) : Int :=
  t.fdiv 86400000

/-- Shape of the string `formatTime` returns: a time-only label for
timestamps on the current day, a dated label otherwise (the two locale
formats always differ — the dated one carries month and day). -/
inductive TimeLabel where
  | today (timestamp : Int)
  | dated (timestamp : Int)
deriving DecidableEq, Repr

/-- `formatTime` from `src/renderer/utils.ts` (lines 46-66): compares the
timestamp's calendar day with the day of `new Date()` — the wall clock —
and picks the format accordingly.  `now` is that wall-clock reading. -/
def formatTime (timestamp : Int) (now : Int) : TimeLabel :=
  if dayOfTimestamp timestamp = dayOfTimestamp now then TimeLabel.today timestamp
  else TimeLabel.dated timestamp

/-- `AxesRenderer.drawTimeLabels` (elements.ts lines 130-150) as the list of
`(x, label)` pairs it draws: empty on an empty series or a hidden time
axis, otherwise one label per index step `max(1, ⌊n/6⌋)`. -/
def drawTimeLabelsPlan (ohlc : List Candle) (dims : ChartDimensions)
    (config : ChartOptions) (now : Int) : List (ℚ × TimeLabel) :=
  if ohlc.isEmpty then []
  else if config.showTimeAxis = false then []
  else
    let step := max 1 (ohlc.length / 6)
    ((List.range ohlc.length).filter fun i => i % step = 0).map fun (i : ℕ) =>
      let x := dims.margin.left + (i : ℚ) / ((ohlc.length : ℚ) - 1) * dims.chartWidth
      let t := (ohlc[i]?.map Candle.time).getD 0
      (x, formatTime t now)

/-- Position slot of one chart on the comparison canvas. -/
structure ChartPosition where
  x : ℚ
  y : ℚ
  width : ℚ
  height : ℚ
deriving DecidableEq, Repr

/-- `this.layout.gap || 10`: JS truthiness, so a `0` gap falls back to 10. -/
def effectiveGap (gap : Option ℚ) : ℚ :=
  match gap with
  | some g => if g = 0 then 10 else g
  | none => 10

/-- `ComparisonRenderer.calculatePosition` in the `side-by-side` branch, as
invoked from `addChart` (comparison.ts lines 85-91 and 147-157): at that
moment `index = this.charts.length = chartsLen`, and the branch divides
`width - gap` by `max(this.charts.length, 2)` — the same `chartsLen`,
ignoring the `totalCharts` argument. -/
def sideBySideDefaultPosition (chartsLen : Nat) (width height : ℚ)
    (gap : Option ℚ) : ChartPosition :=
  let g := effectiveGap gap
  let chartWidth := (width - g) / ((max chartsLen 2 : ℕ) : ℚ)
  { x := chartsLen * (chartWidth + g), y := 0, width := chartWidth, height := height }

/-- Positions of `k` charts added one by one with `addChart` (no explicit
position) under a side-by-side layout: chart `i` is positioned while the
renderer holds `i` previous charts, and positions are never recomputed. -/
def sideBySidePositions (k : Nat) (width height : ℚ) (gap : Option ℚ) :
    List ChartPosition :=
  (List.range k).map fun i => sideBySideDefaultPosition i width height gap

/-- Outcome of `ComparisonService.grid`: an immediate structured failure
`{success:false, error}`, or proceeding to build the comparison service
with the grid layout `{type:'grid', columns, gap:15}`. -/
inductive GridOutcome where
  | failure (error : String)
  | proceed (columns : Int) (gap : ℚ)
deriving DecidableEq, Repr

/-- `ComparisonService.grid` (lines 366-391 of the comparison service):
rejects more than 2 symbols, then more than 2 columns, each with a
descriptive message, before any chart is rendered. -/
def gridComparison (symbols : List String) (columns : Int) : GridOutcome :=
  if 2 < symbols.length then
    GridOutcome.failure ("Grid layout supports maximum 2 symbols. Got " ++
      toString symbols.length ++ " symbols: " ++ String.intercalate ", " symbols)
  else if 2 < columns then
    GridOutcome.failure ("Grid layout supports maximum 2 columns. Got " ++
      toString columns ++ " columns")
  else
    GridOutcome.proceed columns 15

/-! ### Helper lemmas about `jsMin` / `jsMax` -/

theorem jsMin_cons (x : ℚ) (l : List ℚ) (h : l ≠ []) :
    jsMin (x :: l) = min x (jsMin l) := by
  cases l with
  | nil => exact absurd rfl h
  | cons y ys =>
    show List.foldl min x (y :: ys) = min x (List.foldl min y ys)
    rw [List.foldl_cons]
    exact List.foldl_assoc

theorem jsMax_cons (x : ℚ) (l : List ℚ) (h : l ≠ []) :
    jsMax (x :: l) = max x (jsMax l) := by
  cases l with
  | nil => exact absurd rfl h
  | cons y ys =>
    show List.foldl max x (y :: ys) = max x (List.foldl max y ys)
    rw [List.foldl_cons]
    exact List.foldl_assoc

theorem jsMin_le (l : List ℚ) : ∀ x ∈ l, jsMin l ≤ x := by
  induction l with
  | nil => intro x hx; cases hx
  | cons y ys ih =>
    intro x hx
    cases ys with
    | nil =>
      rcases List.mem_singleton.mp hx with rfl
      exact le_refl (jsMin [x])
    | cons z zs =>
      rw [jsMin_cons y (z :: zs) (by simp)]
      rcases List.mem_cons.mp hx with h | h
      · subst h; exact min_le_left _ _
      · exact le_trans (min_le_right _ _) (ih x h)

theorem le_jsMax (l : List ℚ) : ∀ x ∈ l, x ≤ jsMax l := by
  induction l with
  | nil => intro x hx; cases hx
  | cons y ys ih =>
    intro x hx
    cases ys with
    | nil =>
      rcases List.mem_singleton.mp hx with rfl
      exact le_refl (jsMax [x])
    | cons z zs =>
      rw [jsMax_cons y (z :: zs) (by simp)]
      rcases List.mem_cons.mp hx with h | h
      · subst h; exact le_max_left _ _
      · exact le_trans (ih x h) (le_max_right _ _)

theorem jsMin_mem (l : List ℚ) (h : l ≠ []) : jsMin l ∈ l := by
  induction l with
  | nil => exact absurd rfl h
  | cons y ys ih =>
    cases ys with
    | nil => simp [jsMin]
    | cons z zs =>
      rw [jsMin_cons y (z :: zs) (by simp)]
      rcases min_cases y (jsMin (z :: zs)) with ⟨he, _⟩ | ⟨he, _⟩
      · rw [he]; exact List.mem_cons_self _ _
      · rw [he]; exact List.mem_cons_of_mem _ (ih (by simp))

theorem jsMax_mem (l : List ℚ) (h : l ≠ []) : jsMax l ∈ l := by
  induction l with
  | nil => exact absurd rfl h
  | cons y ys ih =>
    cases ys with
    | nil => simp [jsMax]
    | cons z zs =>
      rw [jsMax_cons y (z :: zs) (by simp)]
      rcases max_cases y (jsMax (z :: zs)) with ⟨he, _⟩ | ⟨he, _⟩
      · rw [he]; exact List.mem_cons_self _ _
      · rw [he]; exact List.mem_cons_of_mem _ (ih (by simp))

theorem rangePrices_cons (c : Candle) (ohlc : List Candle) :
    rangePrices (c :: ohlc) = c.high :: c.low :: rangePrices ohlc := by
  simp [rangePrices]

theorem rangePrices_ne_nil (c : Candle) (ohlc : List Candle) :
    rangePrices (c :: ohlc) ≠ [] := by
  rw [rangePrices_cons]; simp

/-- Under the candle invariant `low ≤ high`, the minimum over the
interleaved highs-and-lows list is the minimum of the lows. -/
theorem jsMin_rangePrices (ohlc : List Candle) (hne : ohlc ≠ [])
    (hlh : ∀ c ∈ ohlc, c.low ≤ c.high) :
    jsMin (rangePrices ohlc) = jsMin (ohlc.map Candle.low) := by
  induction ohlc with
  | nil => exact absurd rfl hne
  | cons c rest ih =>
    cases rest with
    | nil =>
      rw [rangePrices_cons]
      have hc : c.low ≤ c.high := hlh c (by simp)
      simp [rangePrices, jsMin, min_eq_right hc]
    | cons d ds =>
      rw [rangePrices_cons]
      have hne2 : rangePrices (d :: ds) ≠ [] := rangePrices_ne_nil d ds
      have hc : c.low ≤ c.high := hlh c (by simp)
      have e1 : jsMin (c.high :: c.low :: rangePrices (d :: ds)) =
          min c.high (jsMin (c.low :: rangePrices (d :: ds))) :=
        jsMin_cons _ _ (by simp)
      rw [e1, jsMin_cons c.low _ hne2,
        ih (by simp) (fun x hx => hlh x (List.mem_cons_of_mem c hx))]
      have e2 : (c :: d :: ds).map Candle.low = c.low :: (d :: ds).map Candle.low := rfl
      rw [e2, jsMin_cons c.low _ (by simp)]
      rw [← min_assoc, min_eq_right hc]

/-- Under the candle invariant `low ≤ high`, the maximum over the
interleaved highs-and-lows list is the maximum of the highs. -/
theorem jsMax_rangePrices (ohlc : List Candle) (hne : ohlc ≠ [])
    (hlh : ∀ c ∈ ohlc, c.low ≤ c.high) :
    jsMax (rangePrices ohlc) = jsMax (ohlc.map Candle.high) := by
  induction ohlc with
  | nil => exact absurd rfl hne
  | cons c rest ih =>
    cases rest with
    | nil =>
      rw [rangePrices_cons]
      have hc : c.low ≤ c.high := hlh c (by simp)
      simp [rangePrices, jsMax, max_eq_left hc]
    | cons d ds =>
      rw [rangePrices_cons]
      have hne2 : rangePrices (d :: ds) ≠ [] := rangePrices_ne_nil d ds
      have hc : c.low ≤ c.high := hlh c (by simp)
      have e1 : jsMax (c.high :: c.low :: rangePrices (d :: ds)) =
          max c.high (jsMax (c.low :: rangePrices (d :: ds))) :=
        jsMax_cons _ _ (by simp)
      rw [e1, jsMax_cons c.low _ hne2,
        ih (by simp) (fun x hx => hlh x (List.mem_cons_of_mem c hx))]
      have e2 : (c :: d :: ds).map Candle.high = c.high :: (d :: ds).map Candle.high := rfl
      rw [e2, jsMax_cons c.high _ (by simp)]
      rw [← max_assoc, max_eq_left hc]

/-- With every scale knob off, `calculatePriceRange` returns the raw base
range over the interleaved highs-and-lows list. -/
theorem calculatePriceRange_noScale_eq (ohlc : List Candle) (config : ChartOptions)
    (hauto : scaleAutoOn config = false) (hx : scaleXArg config = none)
    (hy : scaleYArg config = none) (hmin : scaleMinArg config = none)
    (hmax : scaleMaxArg config = none) :
    calculatePriceRange ohlc config =
      mkRange (jsMin (rangePrices ohlc), jsMax (rangePrices ohlc)) := by
  unfold calculatePriceRange mkRange
  rw [hauto, hx, hy, hmin, hmax]
  simp

/-! ### Claim theorems -/

/-- **C1**: for every non-empty candle series satisfying the candle
invariant `low ≤ high`, `calculatePriceRange` with no scale options set
(no autoScale, no truthy x/y multiplier, no min/max clamp) returns
`min = min(low_i)`, `max = max(high_i)` and `range = max - min`; the
returned min is genuinely the minimum of the lows and the returned max
the maximum of the highs. -/
theorem priceRange_no_options_spec (ohlc : List Candle) (config : ChartOptions)
    (hne : ohlc ≠ []) (hlh : ∀ c ∈ ohlc, c.low ≤ c.high)
    (hauto : scaleAutoOn config = false) (hx : scaleXArg config = none)
    (hy : scaleYArg config = none) (hmin : scaleMinArg config = none)
    (hmax : scaleMaxArg config = none) :
    calculatePriceRange ohlc config =
      { minPrice := jsMin (ohlc.map Candle.low)
        maxPrice := jsMax (ohlc.map Candle.high)
        priceRange := jsMax (ohlc.map Candle.high) - jsMin (ohlc.map Candle.low) } ∧
    jsMin (ohlc.map Candle.low) ∈ ohlc.map Candle.low ∧
    (∀ c ∈ ohlc, jsMin (ohlc.map Candle.low) ≤ c.low) ∧
    jsMax (ohlc.map Candle.high) ∈ ohlc.map Candle.high ∧
    (∀ c ∈ ohlc, c.high ≤ jsMax (ohlc.map Candle.high)) := by
  refine ⟨?_, ?_, ?_, ?_, ?_⟩
  · rw [calculatePriceRange_noScale_eq ohlc config hauto hx hy hmin hmax,
      jsMin_rangePrices ohlc hne hlh, jsMax_rangePrices ohlc hne hlh]
    rfl
  · exact jsMin_mem _ (by simpa using hne)
  · intro c hc
    exact jsMin_le _ _ (List.mem_map_of_mem Candle.low hc)
  · exact jsMax_mem _ (by simpa using hne)
  · intro c hc
    exact le_jsMax _ _ (List.mem_map_of_mem Candle.high hc)

/-- Witness for C1 at a concrete two-candle series. -/
theorem priceRange_no_options_witness :
    calculatePriceRange
      [⟨0, 100, 110, 90, 105, none⟩, ⟨60000, 105, 120, 100, 115, some 5⟩]
      ⟨none, ChartType.candlestick, true, none⟩ =
      ⟨90, 120, 30⟩ :=
  ((priceRange_no_options_spec
    [⟨0, 100, 110, 90, 105, none⟩, ⟨60000, 105, 120, 100, 115, some 5⟩]
    ⟨none, ChartType.candlestick, true, none⟩
    (by decide) (by decide) (by decide) (by decide) (by decide) (by decide)
    (by decide)).1).trans (by norm_num [jsMin, jsMax])

/-- **C2**: when `autoScale` is on, `calculatePriceRange` first expands the
base bounds outward by exactly 5% of the pre-padding range (min drops by
`0.05·(baseMax-baseMin)`, max rises by the same amount) and only then
applies the x multiplier, the y multiplier and the clamps, in that order. -/
theorem autoScale_pads_before_multipliers (ohlc : List Candle) (config : ChartOptions)
    (hauto : scaleAutoOn config = true) :
    calculatePriceRange ohlc config =
      mkRange (applyMaxClamp config (applyMinClamp config (applyYStep config (applyXStep config
        (jsMin (rangePrices ohlc) -
           (jsMax (rangePrices ohlc) - jsMin (rangePrices ohlc)) * (5/100),
         jsMax (rangePrices ohlc) +
           (jsMax (rangePrices ohlc) - jsMin (rangePrices ohlc)) * (5/100)))))) := by
  unfold calculatePriceRange mkRange applyXStep applyYStep applyMinClamp
    applyMaxClamp applyCenteredScale
  rw [hauto]
  cases hX : scaleXArg config <;> cases hY : scaleYArg config <;>
    cases hMin : scaleMinArg config <;> cases hMax : scaleMaxArg config <;> simp

/-- Witness for C2: base range (90,110) pads to (89,111), the x multiplier 2
recenters to (78,122), and the max clamp 118 cuts the top. -/
theorem autoScale_pads_witness :
    scaleAutoOn ⟨some ⟨true, some 2, none, none, some 118⟩, ChartType.line, true, none⟩ = true ∧
    calculatePriceRange [⟨0, 100, 110, 90, 105, none⟩]
      ⟨some ⟨true, some 2, none, none, some 118⟩, ChartType.line, true, none⟩ =
      ⟨78, 118, 40⟩ :=
  ⟨by decide,
    (autoScale_pads_before_multipliers [⟨0, 100, 110, 90, 105, none⟩]
      ⟨some ⟨true, some 2, none, none, some 118⟩, ChartType.line, true, none⟩
      (by decide)).trans (by
        norm_num [mkRange, applyMaxClamp, applyMinClamp, applyYStep, applyXStep,
          applyCenteredScale, scaleXArg, scaleYArg, scaleMinArg, scaleMaxArg,
          truthyNum, jsMin, jsMax, rangePrices])⟩

/-- **C10 (counterexample)**: a degenerate single-price series is *not*
padded — the render plan's PriceRange has `range = 0`, not `> 0`, so the
claimed divide-by-zero protection does not exist. -/
theorem flatSeries_range_not_pos :
    (drawChartPlan [⟨0, 100, 100, 100, 100, none⟩]
        ⟨none, ChartType.candlestick, true, none⟩).map (fun p => p.axes.priceRange) =
      some 0 ∧
    ¬ 0 < (calculatePriceRange [⟨0, 100, 100, 100, 100, none⟩]
        ⟨none, ChartType.candlestick, true, none⟩).priceRange := by
  norm_num [drawChartPlan, calculatePriceRange, scaleAutoOn, scaleXArg, scaleYArg,
    scaleMinArg, scaleMaxArg, truthyNum, jsMin, jsMax, rangePrices]

/-- **C10 (amended)**: with no scale options, the PriceRange of a non-empty
series has `range = max - min`, and `range > 0` exactly when the series
holds two distinct prices (`min(low) < max(high)`); a flat series yields
`range = 0` with no padding. -/
theorem priceRange_pos_iff_two_prices (ohlc : List Candle) (config : ChartOptions)
    (hne : ohlc ≠ []) (hlh : ∀ c ∈ ohlc, c.low ≤ c.high)
    (hauto : scaleAutoOn config = false) (hx : scaleXArg config = none)
    (hy : scaleYArg config = none) (hmin : scaleMinArg config = none)
    (hmax : scaleMaxArg config = none) :
    (calculatePriceRange ohlc config).priceRange =
      (calculatePriceRange ohlc config).maxPrice -
        (calculatePriceRange ohlc config).minPrice ∧
    (0 < (calculatePriceRange ohlc config).priceRange ↔
      jsMin (ohlc.map Candle.low) < jsMax (ohlc.map Candle.high)) := by
  rw [calculatePriceRange_noScale_eq ohlc config hauto hx hy hmin hmax]
  constructor
  · rfl
  · rw [jsMin_rangePrices ohlc hne hlh, jsMax_rangePrices ohlc hne hlh]
    exact sub_pos

/-- Witness for the amended C10 at a non-flat series. -/
theorem priceRange_pos_witness :
    0 < (calculatePriceRange [⟨0, 100, 110, 90, 105, none⟩]
      ⟨none, ChartType.candlestick, true, none⟩).priceRange :=
  ((priceRange_pos_iff_two_prices [⟨0, 100, 110, 90, 105, none⟩]
    ⟨none, ChartType.candlestick, true, none⟩ (by decide) (by decide)
    (by decide) (by decide) (by decide) (by decide) (by decide)).2).mpr (by decide)

/-! ### Heikin-Ashi -/

theorem haGo_length (prev : Candle) (l : List Candle) :
    (haGo prev l).length = l.length := by
  induction l generalizing prev with
  | nil => rfl
  | cons c rest ih => simp [haGo, ih]

/-- The Heikin-Ashi loop recurrence, indexed: if prepending `prev` to the
output, slot `i` of the extended output (= `i - 1` of the plain output, or
`prev` itself) and slot `i` of the input determine output slot `i`. -/
theorem haGo_get (l : List Candle) : ∀ (prev : Candle) (i : ℕ) (a b : Candle),
    (prev :: haGo prev l)[i]? = some a → l[i]? = some b →
    (haGo prev l)[i]? = some (haStep a b) := by
  induction l with
  | nil => intro prev i a b _ hb; simp at hb
  | cons c rest ih =>
    intro prev i a b ha hb
    cases i with
    | zero =>
      rw [List.getElem?_cons_zero] at ha hb
      injection ha with ha
      injection hb with hb
      subst ha; subst hb
      simp [haGo]
    | succ j =>
      simp only [haGo] at ha ⊢
      rw [List.getElem?_cons_succ] at ha hb ⊢
      exact ih (haStep prev c) j a b ha hb

/-- **C3**: the Heikin-Ashi transform preserves the length, copies the
first input candle verbatim, and at every later index satisfies
`close' = (open+high+low+close)/4` of the input candle,
`open' = (prevOut.open + prevOut.close)/2`,
`high' = max(input.high, open', close')`,
`low' = min(input.low, open', close')`. -/
theorem heikinAshi_spec (ohlc : List Candle) (hne : ohlc ≠ []) :
    (calculateHeikinAshi ohlc).length = ohlc.length ∧
    (calculateHeikinAshi ohlc)[0]? = ohlc[0]? ∧
    ∀ (i : ℕ) (a b cc : Candle),
      (calculateHeikinAshi ohlc)[i]? = some a → ohlc[i + 1]? = some b →
      (calculateHeikinAshi ohlc)[i + 1]? = some cc →
      cc.close = (b.opn + b.high + b.low + b.close) / 4 ∧
      cc.opn = (a.opn + a.close) / 2 ∧
      cc.high = max b.high (max cc.opn cc.close) ∧
      cc.low = min b.low (min cc.opn cc.close) := by
  cases ohlc with
  | nil => exact absurd rfl hne
  | cons c0 rest =>
    refine ⟨by simp [calculateHeikinAshi, haGo_length], by simp [calculateHeikinAshi], ?_⟩
    intro i a b cc ha hb hcc
    have h1 : (haGo c0 rest)[i]? = some (haStep a b) := by
      refine haGo_get rest c0 i a b ha ?_
      rw [← List.getElem?_cons_succ (a := c0)]
      exact hb
    have h2 : (calculateHeikinAshi (c0 :: rest))[i + 1]? = (haGo c0 rest)[i]? := by
      simp [calculateHeikinAshi]
    rw [h2, h1] at hcc
    injection hcc with hcc
    subst hcc
    exact ⟨rfl, rfl, rfl, rfl⟩

/-- Witness for C3 at a concrete two-candle series:
`haStep` of `⟨0,10,20,5,15⟩` and `⟨1,16,22,14,18⟩` is `⟨1, 25/2, 22, 25/2, 35/2⟩`. -/
theorem heikinAshi_spec_witness :
    (calculateHeikinAshi [⟨0, 10, 20, 5, 15, none⟩, ⟨1, 16, 22, 14, 18, none⟩]).length = 2 ∧
    (⟨1, 25/2, 22, 25/2, 35/2, none⟩ : Candle).opn = ((10 : ℚ) + 15) / 2 :=
  ⟨((heikinAshi_spec [⟨0, 10, 20, 5, 15, none⟩, ⟨1, 16, 22, 14, 18, none⟩]
      (by decide)).1).trans (by decide),
   ((heikinAshi_spec [⟨0, 10, 20, 5, 15, none⟩, ⟨1, 16, 22, 14, 18, none⟩]
      (by decide)).2.2 0 ⟨0, 10, 20, 5, 15, none⟩ ⟨1, 16, 22, 14, 18, none⟩
      ⟨1, 25/2, 22, 25/2, 35/2, none⟩ rfl rfl
      (by norm_num [calculateHeikinAshi, haGo, haStep])).2.1⟩

/-! ### VWAP -/

theorem vwapGo_length (a b : ℚ) (l : List Candle) :
    (vwapGo a b l).length = l.length := by
  induction l generalizing a b with
  | nil => rfl
  | cons c rest ih => simp [vwapGo, ih]

/-- The VWAP loop, indexed: with accumulators `a` (volume-price sum) and
`b` (volume sum) carried in, point `i` is the cumulative ratio over the
first `i+1` candles, with the typical-price fallback at zero volume. -/
theorem vwapGo_get (l : List Candle) : ∀ (a b : ℚ) (i : ℕ) (c : Candle) (p : VWAPPoint),
    l[i]? = some c → (vwapGo a b l)[i]? = some p →
    p.time = c.time ∧
    p.value = if 0 < b + sumVol (l.take (i + 1))
      then (a + sumVolPrice (l.take (i + 1))) / (b + sumVol (l.take (i + 1)))
      else typicalPrice c := by
  induction l with
  | nil => intro a b i c p hc _; simp at hc
  | cons d rest ih =>
    intro a b i c p hc hp
    cases i with
    | zero =>
      rw [List.getElem?_cons_zero] at hc
      injection hc with hc
      subst hc
      simp only [vwapGo] at hp
      rw [List.getElem?_cons_zero] at hp
      injection hp with hp
      subst hp
      refine ⟨rfl, ?_⟩
      simp [sumVol, sumVolPrice]
    | succ j =>
      simp only [vwapGo] at hp
      rw [List.getElem?_cons_succ] at hp hc
      have key := ih (a + typicalPrice d * d.volume.getD 0) (b + d.volume.getD 0)
        j c p hc hp
      refine ⟨key.1, ?_⟩
      rw [key.2]
      have e1 : b + sumVol ((d :: rest).take (j + 1 + 1)) =
          b + d.volume.getD 0 + sumVol (rest.take (j + 1)) := by
        rw [List.take_succ_cons]
        simp only [sumVol, List.map_cons, List.sum_cons]
        ring
      have e2 : a + sumVolPrice ((d :: rest).take (j + 1 + 1)) =
          a + typicalPrice d * d.volume.getD 0 + sumVolPrice (rest.take (j + 1)) := by
        rw [List.take_succ_cons]
        simp only [sumVolPrice, List.map_cons, List.sum_cons]
        ring
      rw [e1, e2]

/-- **C4**: VWAP produces exactly one point per input candle; point `i`
carries the candle's time and the cumulative `Σ(volume·typicalPrice)` over
the cumulative `Σ(volume)` of the first `i+1` candles, falling back to the
candle's own typical price while the cumulative volume is zero; in
particular, on a series whose every candle has zero (or absent) volume,
every point equals that candle's own typical price. -/
theorem vwap_spec (ohlc : List Candle) :
    (calculateVWAP ohlc).length = ohlc.length ∧
    (∀ (i : ℕ) (c : Candle) (p : VWAPPoint),
      ohlc[i]? = some c → (calculateVWAP ohlc)[i]? = some p →
      p.time = c.time ∧
      p.value = if 0 < sumVol (ohlc.take (i + 1))
        then sumVolPrice (ohlc.take (i + 1)) / sumVol (ohlc.take (i + 1))
        else typicalPrice c) ∧
    ((∀ c ∈ ohlc, c.volume.getD 0 = 0) →
      ∀ (i : ℕ) (c : Candle) (p : VWAPPoint),
        ohlc[i]? = some c → (calculateVWAP ohlc)[i]? = some p →
        p.value = typicalPrice c) := by
  have main : ∀ (i : ℕ) (c : Candle) (p : VWAPPoint),
      ohlc[i]? = some c → (calculateVWAP ohlc)[i]? = some p →
      p.time = c.time ∧
      p.value = if 0 < sumVol (ohlc.take (i + 1))
        then sumVolPrice (ohlc.take (i + 1)) / sumVol (ohlc.take (i + 1))
        else typicalPrice c := by
    intro i c p hc hp
    have key := vwapGo_get ohlc 0 0 i c p hc hp
    simpa using key
  refine ⟨vwapGo_length 0 0 ohlc, main, ?_⟩
  intro hz i c p hc hp
  have hv : sumVol (ohlc.take (i + 1)) = 0 := by
    apply List.sum_eq_zero
    intro x hx
    rcases List.mem_map.mp hx with ⟨d, hd, hdx⟩
    rw [← hdx]
    exact hz d (List.take_subset _ _ hd)
  have := (main i c p hc hp).2
  rw [hv] at this
  simpa using this

/-- Witness for C4: an all-zero-volume two-candle series where point 1
equals its candle's typical price `(22+14+18)/3 = 18`. -/
theorem vwap_spec_witness :
    (calculateVWAP [⟨0, 10, 20, 5, 15, some 0⟩, ⟨1, 16, 22, 14, 18, none⟩]).length = 2 ∧
    ({ time := 1, value := 18 } : VWAPPoint).value =
      typicalPrice ⟨1, 16, 22, 14, 18, none⟩ :=
  ⟨((vwap_spec [⟨0, 10, 20, 5, 15, some 0⟩, ⟨1, 16, 22, 14, 18, none⟩]).1).trans (by decide),
   (vwap_spec [⟨0, 10, 20, 5, 15, some 0⟩, ⟨1, 16, 22, 14, 18, none⟩]).2.2 (by decide)
     1 ⟨1, 16, 22, 14, 18, none⟩ { time := 1, value := 18 } rfl
     (by norm_num [calculateVWAP, vwapGo, typicalPrice])⟩

/-! ### Renko -/

/-- The Renko loop emits no brick while every close equals the running
reference price: the price-change percentage is `0`, below any positive
brick size. -/
theorem renkoGo_flat (p brickSize : ℚ) (l : List Candle)
    (h : ∀ c ∈ l, c.close = p) (hb : 0 < brickSize) :
    renkoGo p brickSize l = [] := by
  induction l with
  | nil => rfl
  | cons c rest ih =>
    have hc : c.close = p := h c (List.mem_cons_self c rest)
    simp only [renkoGo, hc, sub_self, zero_div, abs_zero,
      if_neg (not_le.mpr hb)]
    exact ih fun d hd => h d (List.mem_cons_of_mem c hd)

/-- **C5**: on a non-empty perfectly flat series (every close equal to the
first close) `calculateRenko` with the renderer's 2% brick size returns
zero bricks, and `RenkoRenderer.render` then draws nothing — the zero-brick
early return makes the render a total no-op. -/
theorem renko_flat_spec (candles : List Candle) (dims : ChartDimensions)
    (config : ChartOptions) (c0 : Candle) (h0 : candles.head? = some c0)
    (hflat : ∀ c ∈ candles, c.close = c0.close) :
    calculateRenko candles (2/100) = [] ∧
    renkoRenderOps candles dims config = [] := by
  cases candles with
  | nil => simp at h0
  | cons d rest =>
    rw [List.head?_cons] at h0
    injection h0 with h0
    subst h0
    have h1 : calculateRenko (d :: rest) (2/100) = [] := by
      show renkoGo d.close (2/100) rest = []
      exact renkoGo_flat _ _ _
        (fun c hc => hflat c (List.mem_cons_of_mem _ hc)) (by norm_num)
    refine ⟨h1, ?_⟩
    simp [renkoRenderOps, h1]

/-- Witness for C5 at a concrete flat three-candle series. -/
theorem renko_flat_witness :
    calculateRenko [⟨0, 100, 101, 99, 100, none⟩, ⟨1, 100, 102, 98, 100, none⟩,
      ⟨2, 99, 101, 99, 100, none⟩] (2/100) = [] ∧
    renkoRenderOps [⟨0, 100, 101, 99, 100, none⟩, ⟨1, 100, 102, 98, 100, none⟩,
      ⟨2, 99, 101, 99, 100, none⟩] ⟨800, 600, ⟨60, 40, 60, 40⟩, 700, 500⟩
      ⟨none, ChartType.renko, true, none⟩ = [] :=
  renko_flat_spec
    [⟨0, 100, 101, 99, 100, none⟩, ⟨1, 100, 102, 98, 100, none⟩,
      ⟨2, 99, 101, 99, 100, none⟩]
    ⟨800, 600, ⟨60, 40, 60, 40⟩, 700, 500⟩ ⟨none, ChartType.renko, true, none⟩
    ⟨0, 100, 101, 99, 100, none⟩ rfl (by decide)

/-! ### Grid comparison constraints -/

/-- **C6**: `ComparisonService.grid` with more than 2 symbols or more than
2 columns returns a structured `{success:false, error}` outcome whose
message cites the violated constraint, and never proceeds to render —
nothing is truncated or partially drawn. -/
theorem grid_rejects (symbols : List String) (columns : Int)
    (h : 2 < symbols.length ∨ 2 < columns) :
    (∃ e, gridComparison symbols columns = GridOutcome.failure e) ∧
    (∀ c g, gridComparison symbols columns ≠ GridOutcome.proceed c g) ∧
    (2 < symbols.length →
      gridComparison symbols columns = GridOutcome.failure
        ("Grid layout supports maximum 2 symbols. Got " ++ toString symbols.length ++
          " symbols: " ++ String.intercalate ", " symbols)) ∧
    (symbols.length ≤ 2 → 2 < columns →
      gridComparison symbols columns = GridOutcome.failure
        ("Grid layout supports maximum 2 columns. Got " ++ toString columns ++
          " columns")) := by
  unfold gridComparison
  by_cases h1 : 2 < symbols.length
  · rw [if_pos h1]
    exact ⟨⟨_, rfl⟩, fun c g => by simp, fun _ => rfl,
      fun h2 _ => absurd h1 (not_lt.mpr h2)⟩
  · rw [if_neg h1]
    have h2 : 2 < columns := h.resolve_left h1
    rw [if_pos h2]
    exact ⟨⟨_, rfl⟩, fun c g => by simp, fun hs => absurd hs h1, fun _ _ => rfl⟩

/-- Witness for C6: the spec scenario — 2 symbols, 3 columns — fails with
the message citing "maximum 2 columns". -/
theorem grid_rejects_witness :
    gridComparison ["BTC/USDT", "ETH/USDT"] 3 = GridOutcome.failure
      ("Grid layout supports maximum 2 columns. Got " ++ toString (3 : Int) ++
        " columns") :=
  (grid_rejects ["BTC/USDT", "ETH/USDT"] 3 (Or.inr (by decide))).2.2.2
    (by decide) (by decide)

/-! ### Time-label determinism -/

theorem formatTime_congr (t n1 n2 : Int)
    (h : dayOfTimestamp n1 = dayOfTimestamp n2) :
    formatTime t n1 = formatTime t n2 := by
  unfold formatTime
  rw [h]

/-- **C7 (counterexample)**: the time-label list of a fixed series under a
fixed configuration differs between two wall-clock readings (epoch day 0
versus epoch day 2): `formatTime` branches on whether the candle's day *is
today*, so label computation depends on the wall clock. -/
theorem timeLabels_wallClock_dependent :
    drawTimeLabelsPlan [⟨0, 1, 1, 1, 1, none⟩, ⟨3600000, 1, 1, 1, 1, none⟩]
      ⟨800, 600, ⟨60, 40, 60, 40⟩, 700, 500⟩
      ⟨none, ChartType.candlestick, true, none⟩ 0 ≠
    drawTimeLabelsPlan [⟨0, 1, 1, 1, 1, none⟩, ⟨3600000, 1, 1, 1, 1, none⟩]
      ⟨800, 600, ⟨60, 40, 60, 40⟩, 700, 500⟩
      ⟨none, ChartType.candlestick, true, none⟩ 172800000 := by
  have h2 : Int.fdiv 172800000 86400000 = 2 := by decide
  have h3 : Int.fdiv 3600000 86400000 = 0 := by decide
  have h4 : Int.fdiv 0 86400000 = 0 := by decide
  norm_num [drawTimeLabelsPlan, formatTime, dayOfTimestamp, List.range,
    List.range.loop, h2, h3, h4]
  exact fun hx => absurd hx (by simp)

/-- **C7 (amended)**: layout is wall-clock independent — the x positions of
the time labels agree for any two wall-clock readings — and the whole
label list is identical for two renders whose wall-clock readings fall on
the same calendar day.  Only the label text's today/dated format depends on
the current day. -/
theorem timeLabels_sameDay_deterministic (ohlc : List Candle)
    (dims : ChartDimensions) (config : ChartOptions) (now1 now2 : Int)
    (h : dayOfTimestamp now1 = dayOfTimestamp now2) :
    drawTimeLabelsPlan ohlc dims config now1 =
      drawTimeLabelsPlan ohlc dims config now2 ∧
    ∀ (n1 n2 : Int),
      (drawTimeLabelsPlan ohlc dims config n1).map Prod.fst =
        (drawTimeLabelsPlan ohlc dims config n2).map Prod.fst := by
  constructor
  · unfold drawTimeLabelsPlan
    by_cases h1 : ohlc.isEmpty
    · rw [if_pos h1, if_pos h1]
    · rw [if_neg h1, if_neg h1]
      by_cases h2 : config.showTimeAxis = false
      · rw [if_pos h2, if_pos h2]
      · rw [if_neg h2, if_neg h2]
        simp only [formatTime_congr _ _ _ h]
  · intro n1 n2
    unfold drawTimeLabelsPlan
    by_cases h1 : ohlc.isEmpty
    · rw [if_pos h1, if_pos h1]
    · rw [if_neg h1, if_neg h1]
      by_cases h2 : config.showTimeAxis = false
      · rw [if_pos h2, if_pos h2]
      · rw [if_neg h2, if_neg h2]
        simp [List.map_map, Function.comp]

/-- Witness for the amended C7: two wall-clock readings one hour apart on
the same day produce the identical label list. -/
theorem timeLabels_sameDay_witness :
    drawTimeLabelsPlan [⟨0, 1, 1, 1, 1, none⟩, ⟨3600000, 1, 1, 1, 1, none⟩]
      ⟨800, 600, ⟨60, 40, 60, 40⟩, 700, 500⟩
      ⟨none, ChartType.candlestick, true, none⟩ 3600000 =
    drawTimeLabelsPlan [⟨0, 1, 1, 1, 1, none⟩, ⟨3600000, 1, 1, 1, 1, none⟩]
      ⟨800, 600, ⟨60, 40, 60, 40⟩, 700, 500⟩
      ⟨none, ChartType.candlestick, true, none⟩ 7200000 :=
  (timeLabels_sameDay_deterministic
    [⟨0, 1, 1, 1, 1, none⟩, ⟨3600000, 1, 1, 1, 1, none⟩]
    ⟨800, 600, ⟨60, 40, 60, 40⟩, 700, 500⟩
    ⟨none, ChartType.candlestick, true, none⟩ 3600000 7200000 (by decide)).1

/-! ### Side-by-side comparison layout -/

/-- **C8 (counterexample)**: with K = 3 charts on a 1600×800 canvas and a
10px gap, chart 2 is assigned width `(1600-10)/2 = 795` and starts at
`x = 2·(795+10) = 1610` — not the claimed even split
`(1600 - 2·10)/3 = 1580/3`.  The charts do not split the width evenly. -/
theorem sideBySide_three_counterexample :
    (sideBySidePositions 3 1600 800 (some 10))[2]? =
      some ⟨1610, 0, 795, 800⟩ ∧
    (795 : ℚ) ≠ (1600 - (3 - 1) * 10) / 3 := by
  constructor
  · norm_num [sideBySidePositions, sideBySideDefaultPosition, effectiveGap,
      List.range, List.range.loop]
  · norm_num

/-- **C8 (amended)**: every chart gets the full canvas height and starts at
`x = i·(width_i + gap)`, but its width is `(W - gap)/max(i, 2)` — computed
from the number of charts already added, with the gap subtracted once.
Only for K = 2 does this coincide with the claimed even split
`(W - (K-1)·gap)/K` for every chart. -/
theorem sideBySide_positions_spec (k : Nat) (w h : ℚ) (gap : Option ℚ)
    (i : Nat) (hik : i < k) :
    (sideBySidePositions k w h gap)[i]? =
      some ⟨(i : ℚ) * ((w - effectiveGap gap) / ((max i 2 : ℕ) : ℚ) + effectiveGap gap),
        0, (w - effectiveGap gap) / ((max i 2 : ℕ) : ℚ), h⟩ ∧
    sideBySidePositions 2 w h gap =
      [⟨0, 0, (w - effectiveGap gap) / 2, h⟩,
       ⟨(w - effectiveGap gap) / 2 + effectiveGap gap, 0,
        (w - effectiveGap gap) / 2, h⟩] := by
  constructor
  · simp [sideBySidePositions, List.getElem?_map, List.getElem?_range, hik,
      sideBySideDefaultPosition]
  · simp only [sideBySidePositions, List.range_succ, List.range_zero,
      List.nil_append, List.cons_append, List.map_cons, List.map_nil,
      sideBySideDefaultPosition]
    norm_num

/-- Witness for the amended C8: two charts on a 1600×800 canvas with a
20px gap sit at x = 0 and x = 810, each 790 wide and full height. -/
theorem sideBySide_positions_witness :
    (sideBySidePositions 2 1600 800 (some 20))[1]? =
      some ⟨810, 0, 790, 800⟩ := by
  have key := (sideBySide_positions_spec 2 1600 800 (some 20) 1 (by decide)).1
  rw [key]
  norm_num [effectiveGap]

/-! ### Per-consumer price frames of one render -/

/-- On the 100→103 sample series the 2%-brick Renko transform emits exactly
one up brick from 100 to 102. -/
theorem calculateRenko_example :
    calculateRenko [⟨0, 100, 100, 100, 100, none⟩, ⟨1, 100, 104, 99, 103, none⟩]
      (2/100) = [⟨1, 100, 102, 102, 100, 1⟩] := by
  have hval : ((103 : ℚ) - 100) / 100 = 3/100 := by norm_num
  have habs : |((103 : ℚ) - 100) / 100| = 3/100 := by
    rw [hval]; exact abs_of_nonneg (by norm_num)
  have hfloor : ⌊|((103 : ℚ) - 100) / 100| / (2/100)⌋ = 1 := by
    rw [habs, Int.floor_eq_iff]
    norm_num
  show renkoGo 100 (2/100) [⟨1, 100, 104, 99, 103, none⟩] = _
  simp only [renkoGo]
  rw [if_pos (by rw [habs]; norm_num)]
  rw [hfloor]
  norm_num [emitBlocks, renkoGo]

/-- The render plan of the sample series under a renko configuration:
axes/levels/overlays get the original-series range (99,104,5) while the
brick renderer's own frame is (100,102,2). -/
theorem drawChartPlan_renko_example :
    drawChartPlan [⟨0, 100, 100, 100, 100, none⟩, ⟨1, 100, 104, 99, 103, none⟩]
      ⟨none, ChartType.renko, true, none⟩ =
    some ⟨⟨99, 104, 5⟩, ⟨99, 104, 5⟩, ⟨99, 104, 5⟩, some ⟨100, 102, 2⟩⟩ := by
  have hpr : calculatePriceRange
      [⟨0, 100, 100, 100, 100, none⟩, ⟨1, 100, 104, 99, 103, none⟩]
      ⟨none, ChartType.renko, true, none⟩ = ⟨99, 104, 5⟩ := by
    norm_num [calculatePriceRange, scaleAutoOn, scaleXArg, scaleYArg, scaleMinArg,
      scaleMaxArg, truthyNum, jsMin, jsMax, rangePrices]
  have hshape : renkoShapeRange
      [⟨0, 100, 100, 100, 100, none⟩, ⟨1, 100, 104, 99, 103, none⟩] =
      some ⟨100, 102, 2⟩ := by
    rw [renkoShapeRange]
    rw [calculateRenko_example]
    norm_num [jsMin, jsMax, mkRange]
  unfold drawChartPlan
  rw [if_neg (by decide)]
  rw [hpr, hshape]

/-- **C9 (counterexample)**: under a renko configuration on the sample
series, the PriceRange handed to the axes (and levels and overlays)
renderers is the original-series range (99,104,5), while the frame actually
used for the primary shape is the Renko block extremes (100,102,2) — the
axes' coordinate frame does *not* derive from the transformed series'
min/max as the claim states. -/
theorem renderPlan_renko_counterexample :
    (drawChartPlan [⟨0, 100, 100, 100, 100, none⟩, ⟨1, 100, 104, 99, 103, none⟩]
        ⟨none, ChartType.renko, true, none⟩).map RenderPlan.axes =
      some ⟨99, 104, 5⟩ ∧
    (drawChartPlan [⟨0, 100, 100, 100, 100, none⟩, ⟨1, 100, 104, 99, 103, none⟩]
        ⟨none, ChartType.renko, true, none⟩).map RenderPlan.shape =
      some (some ⟨100, 102, 2⟩) ∧
    (⟨99, 104, 5⟩ : PriceRange) ≠ ⟨100, 102, 2⟩ := by
  rw [drawChartPlan_renko_example]
  refine ⟨rfl, rfl, ?_⟩
  decide

/-- **C9 (amended)**: in every render, the PriceRange handed to the axes,
levels and overlay renderers is `calculatePriceRange` of the *original*
candles regardless of chart type; only the primary shape's internal frame
derives from the transformed series — the Heikin-Ashi extremes for
heikin-ashi, the Renko block extremes for renko, and the shared original
range for candlestick/line/area. -/
theorem renderPlan_frames (ohlc : List Candle) (config : ChartOptions)
    (plan : RenderPlan) (h : drawChartPlan ohlc config = some plan) :
    plan.axes = calculatePriceRange ohlc config ∧
    plan.levels = calculatePriceRange ohlc config ∧
    plan.overlays = calculatePriceRange ohlc config ∧
    (config.chartType = ChartType.heikinAshi →
      plan.shape = some (haShapeRange ohlc)) ∧
    (config.chartType = ChartType.renko → plan.shape = renkoShapeRange ohlc) ∧
    (config.chartType = ChartType.candlestick ∨ config.chartType = ChartType.line ∨
        config.chartType = ChartType.area →
      plan.shape = some (calculatePriceRange ohlc config)) := by
  unfold drawChartPlan at h
  by_cases he : ohlc.isEmpty
  · rw [if_pos he] at h
    exact absurd h (by simp)
  · rw [if_neg he] at h
    injection h with h
    subst h
    refine ⟨rfl, rfl, rfl, ?_, ?_, ?_⟩
    · intro hct; simp [hct]
    · intro hct; simp [hct]
    · intro hct
      rcases hct with hct | hct | hct <;> simp [hct]

/-- Witness for the amended C9 at the renko sample: the plan's shape frame
equals the Renko block extremes, not the axes range. -/
theorem renderPlan_frames_witness :
    (⟨⟨99, 104, 5⟩, ⟨99, 104, 5⟩, ⟨99, 104, 5⟩, some ⟨100, 102, 2⟩⟩ : RenderPlan).shape =
      renkoShapeRange [⟨0, 100, 100, 100, 100, none⟩, ⟨1, 100, 104, 99, 103, none⟩] :=
  (renderPlan_frames [⟨0, 100, 100, 100, 100, none⟩, ⟨1, 100, 104, 99, 103, none⟩]
    ⟨none, ChartType.renko, true, none⟩
    ⟨⟨99, 104, 5⟩, ⟨99, 104, 5⟩, ⟨99, 104, 5⟩, some ⟨100, 102, 2⟩⟩
    drawChartPlan_renko_example).2.2.2.2.1 rfl

end ChartToImage
